import Mathlib

/-!
# Mini E-Commerce Platform — verification of the spec against the source

Shallow embedding of the repository's code:

* `Backend` — the two Express applications (`backend/app.js` and
  `backend/src/app.js`) as explicit route tables with a dispatch function,
  and the health-check probe `backend/src/health.js`.
* `Client` — the frontend HTTP client (`api.js` with `authHeaders`):
  request construction and response handling.
* `Auth` / `Catalog` — the Auth Service and Catalog Service.  These two
  services are described by the specification but are not implemented
  anywhere in the repository (the backend registers no `/api/users` or
  `/api/products` route); only their frontend callers exist.  They are
  therefore modelled from the specification's words (§3, §4.1, §4.2), as
  marked on each definition.
-/

namespace Backend

/-- HTTP methods used by the repository's routes and clients. -/
inductive Method where
  | GET
  | POST
  | PUT
  | DELETE
deriving DecidableEq, Repr

/-- A JSON value, as produced by `res.json(...)` in the backend. -/
inductive Json where
  | str : String → Json
  | num : Int → Json
  | obj : List (String × Json) → Json

/-- Outcome of dispatching one HTTP request on an Express application:
either a registered route handler produced a response, a mounted
middleware (here only `swagger-ui` under `/api-docs`) took the request,
or no handler matched and Express falls through to its default 404. -/
inductive Outcome where
  | route : Nat → Json → Outcome
  | mount : Outcome
  | notFound : Outcome

/-- Express `app.use(prefix, ...)` path matching: the request path equals
the mount prefix or extends it with a `/` segment (compared on the
character lists of the two paths). -/
def mountMatch (pre p : String) : Bool :=
  p == pre || (pre ++ "/").data.isPrefixOf p.data

/-- Body of the `/health` handler: `{ status: 'ok' }`. -/
def healthBody : Json := .obj [("status", .str "ok")]

/-- The application of `backend/app.js`: `express.json()` and `cors`
middleware (which never answer a request themselves), `swagger-ui`
mounted at `/api-docs`, and the single route
`app.get('/health', (req, res) => res.json({ status: 'ok' }))`
(`res.json` without `res.status` responds with Express's default 200).
Every other request reaches Express's default 404 handler. -/
def appMain (m : Method) (p : String) : Outcome :=
  if mountMatch "/api-docs" p then .mount
  else if m = .GET ∧ p = "/health" then .route 200 healthBody
  else .notFound

/-- Body of the placeholder root handler of `backend/src/app.js`. -/
def rootBody : Json := .obj [("message", .str "E-commerce API running")]

/-- The application of `backend/src/app.js` (the one the test suite
imports and the Dockerfile runs): `cors` and `express.json()` middleware,
`app.get('/health', (_req, res) => res.status(200).json({ status: 'ok' }))`
and the placeholder root
`app.get('/', (_req, res) => res.json({ message: 'E-commerce API running' }))`.
No other route is registered. -/
def appSrc (m : Method) (p : String) : Outcome :=
  if m = .GET ∧ p = "/health" then .route 200 healthBody
  else if m = .GET ∧ p = "/" then .route 200 rootBody
  else .notFound

/-- The probe `backend/src/health.js` issues `GET /health`; its callback
exits with `0` when `res.statusCode === 200` and with `1` otherwise, and
the `error` listener exits with `1` on any connection error (`none`
models a connection error, `some c` a response with status code `c`). -/
def healthProbeExit : Option Nat → Nat
  | some code => if code = 200 then 0 else 1
  | none => 1

end Backend

namespace Client

open Backend (Method)

/-- Function `getToken()` reads the stored token from `localStorage` (modelled as
an optional string). -/
def getToken (store : Option String) : Option String := store

/-- Function `authHeaders()` from the frontend `api.js`: a single
`Authorization: Bearer <t>` header when a token is stored, and no header
otherwise. -/
def authHeaders (store : Option String) : List (String × String) :=
  match getToken store with
  | some t => [("Authorization", "Bearer " ++ t)]
  | none => []

/-- An HTTP request as assembled by the frontend client. -/
structure Request where
  method : Method
  path : String
  headers : List (String × String)
  body : Option String
deriving DecidableEq, Repr

/-- A `fetch` response as observed by the client: the `ok` flag and the
raw body text (`r.text()`; `r.json()` is the parse of the same body). -/
structure FetchResponse where
  ok : Bool
  body : String
deriving DecidableEq, Repr

/-- The response handling shared verbatim by every client function:
`if(!r.ok) throw new Error(await r.text()); return r.json();` — on a
non-ok response throw an `Error` whose message is the raw body text,
otherwise return the body parsed as JSON (`parse` stands for the
browser's `JSON.parse`, an external collaborator). -/
def apiResult {α : Type} (parse : String → α) (r : FetchResponse) :
    Except String α :=
  if r.ok then .ok (parse r.body) else .error r.body

/-- Request of `register(payload)`: `POST /api/users/register`, JSON content type,
no auth header. -/
def registerReq (payload : String) : Request :=
  ⟨.POST, "/api/users/register", [("Content-Type", "application/json")], some payload⟩

/-- Request of `login(payload)`: `POST /api/users/login`, JSON content type, no
auth header. -/
def loginReq (payload : String) : Request :=
  ⟨.POST, "/api/users/login", [("Content-Type", "application/json")], some payload⟩

/-- Request of `me()`: `GET /api/users/profile` with `authHeaders()`. -/
def meReq (store : Option String) : Request :=
  ⟨.GET, "/api/users/profile", authHeaders store, none⟩

/-- Request of `listProducts()`: `GET /api/products` with `authHeaders()`. -/
def listProductsReq (store : Option String) : Request :=
  ⟨.GET, "/api/products", authHeaders store, none⟩

/-- Request of `createProduct(p)`: `POST /api/products` with content type and
`authHeaders()`. -/
def createProductReq (store : Option String) (payload : String) : Request :=
  ⟨.POST, "/api/products", ("Content-Type", "application/json") :: authHeaders store, some payload⟩

/-- Request of `updateProduct(id, p)`: `PUT /api/products/:id` with content type and
`authHeaders()`. -/
def updateProductReq (store : Option String) (id payload : String) : Request :=
  ⟨.PUT, "/api/products/" ++ id, ("Content-Type", "application/json") :: authHeaders store, some payload⟩

/-- Request of `deleteProduct(id)`: `DELETE /api/products/:id` with `authHeaders()`. -/
def deleteProductReq (store : Option String) (id : String) : Request :=
  ⟨.DELETE, "/api/products/" ++ id, authHeaders store, none⟩

/-- Whether a request carries an `Authorization` header. -/
def hasAuthHeader (r : Request) : Bool :=
  r.headers.any (fun h => h.1 == "Authorization")

end Client

namespace Auth

/-- Modelled from the spec: the Auth Service and Credential Store are
absent from the repository's source (no backend route implements them);
§3 "User" — `id` unique server-generated, `email` unique
case-insensitively, `passwordHash` a one-way salted hash with a per-user
salt, `name` optional. -/
structure User where
  id : Nat
  email : String
  salt : String
  passwordHash : String
  name : Option String
deriving DecidableEq, Repr

/-- Modelled from the spec: the Credential Store holds the User records;
`nextId` models the store's unique server-side id generation. -/
structure AuthState where
  users : List User
  nextId : Nat
deriving DecidableEq, Repr

/-- Modelled from the spec (§7): the error taxonomy of the Auth Service. -/
inductive AuthError where
  | invalidInput
  | duplicateEmail
  | invalidCredentials
  | invalidToken
deriving DecidableEq, Repr

/-- Modelled from the spec: emails compare case-insensitively, so lookup
and uniqueness use the lower-cased form. -/
def normEmail (e : String) : String := ⟨e.data.map Char.toLower⟩

/-- Modelled from the spec: "email must be syntactically valid" — the
minimal syntactic requirement, the presence of an `@`. -/
def emailValid (e : String) : Bool := e.data.any (fun c => c = '@')

/-- Modelled from the spec: "password must meet a minimum length policy
(e.g., ≥ 6 characters — exact threshold is a configuration constant)". -/
def minPasswordLength : Nat := 6

/-- Modelled from the spec: the password length policy. -/
def pwValid (p : String) : Bool := minPasswordLength ≤ p.length

/-- Modelled from the spec: the one-way salted password hash.  The hash
function itself is an external algorithm; the model keeps what the
service relies on — determinism in `(salt, password)` — by tagging the
password with its salt. -/
def hashPassword (salt pw : String) : String := salt ++ ":" ++ pw

/-- Modelled from the spec: the per-user random salt, drawn at
registration; randomness is external, so the model derives it from the
fresh user id. -/
def saltFor (uid : Nat) : String := "salt" ++ toString uid

/-- Modelled from the spec: look a user up by email, case-insensitively. -/
def findByEmail (s : AuthState) (e : String) : Option User :=
  s.users.find? (fun u => normEmail u.email == normEmail e)

/-- Modelled from the spec: "a fixed lifetime (e.g., 24h — configuration
constant)", in seconds. -/
def tokenLifetime : Nat := 86400

/-- Modelled from the spec: a Session Token embeds `userId` and expiry
and is signed with a server-held secret. -/
structure Token where
  userId : Nat
  expiry : Nat
  sig : Nat
deriving DecidableEq, Repr

/-- Modelled from the spec: the signature over the token's contents with
the server-held secret (the MAC itself is an external algorithm; the
model keeps determinism in `(secret, userId, expiry)`). -/
def sign (secret uid expiry : Nat) : Nat :=
  secret * 1000003 + uid * 1009 + expiry

/-- Modelled from the spec: "Token minting embeds `userId` and expiry,
signs with a server-held secret". -/
def mintToken (secret now uid : Nat) : Token :=
  { userId := uid, expiry := now + tokenLifetime,
    sig := sign secret uid (now + tokenLifetime) }

/-- Modelled from the spec (§4.1 `validate`): the token must carry an
intact integrity check and be unexpired; the result is the `userId`
bound to the token. -/
def validate (secret now : Nat) (t : Token) : Except AuthError Nat :=
  if t.sig ≠ sign secret t.userId t.expiry then .error .invalidToken
  else if t.expiry ≤ now then .error .invalidToken
  else .ok t.userId

/-- Modelled from the spec (§4.1 `register` and §8): `DuplicateEmail`
when the email is already registered — "regardless of password", so the
duplicate check precedes input validation; `InvalidInput` when email or
password fail validation; otherwise one new User record is persisted and
a fresh token minted. -/
def register (secret now : Nat) (s : AuthState) (email password : String)
    (name : Option String) : Except AuthError (AuthState × User × Token) :=
  match findByEmail s email with
  | some _ => .error .duplicateEmail
  | none =>
    if emailValid email ∧ pwValid password then
      let u : User :=
        { id := s.nextId, email := email, salt := saltFor s.nextId,
          passwordHash := hashPassword (saltFor s.nextId) password,
          name := name }
      .ok ({ users := s.users ++ [u], nextId := s.nextId + 1 }, u,
           mintToken secret now s.nextId)
    else .error .invalidInput

/-- Modelled from the spec (§4.1 `login`): verification recomputes the
hash with the stored salt; a missing user and a non-matching password
yield the same `InvalidCredentials` error. -/
def login (secret now : Nat) (s : AuthState) (email password : String) :
    Except AuthError Token :=
  match findByEmail s email with
  | none => .error .invalidCredentials
  | some u =>
    if u.passwordHash = hashPassword u.salt password then
      .ok (mintToken secret now u.id)
    else .error .invalidCredentials

/-- The spec's User invariant: no two Users share an email,
case-insensitively. -/
def EmailsUnique (s : AuthState) : Prop :=
  s.users.Pairwise (fun a b => normEmail a.email ≠ normEmail b.email)

end Auth

namespace Catalog

open Auth (Token validate)

/-- Modelled from the spec: the Catalog Service and Product Store are
absent from the repository's source; §3 "Product" — `id` unique
server-generated, `name` required non-empty, `price` numeric and ≥ 0,
`description` optional, `ownerId` the creating User's id. -/
structure Product where
  id : Nat
  name : String
  price : Rat
  description : Option String
  ownerId : Nat
deriving DecidableEq, Repr

/-- Modelled from the spec: the Product Store keeps the products in
insertion order; `nextId` models the store's unique id generation. -/
structure CatalogState where
  products : List Product
  nextId : Nat
deriving DecidableEq, Repr

/-- Modelled from the spec (§7): the error taxonomy of the Catalog
Service (`unauthenticated` covers the propagated
`Unauthenticated`/`InvalidToken` cases). -/
inductive CatalogError where
  | unauthenticated
  | invalidInput
  | notFound
deriving DecidableEq, Repr

/-- Modelled from the spec: the initial, empty store. -/
def initialState : CatalogState := { products := [], nextId := 0 }

/-- Modelled from the spec (§4.2 `list`): all products, insertion order,
no authentication required. -/
def list (cs : CatalogState) : List Product := cs.products

/-- Modelled from the spec: look a product up by id in the store. -/
def findById (cs : CatalogState) (id : Nat) : Option Product :=
  cs.products.find? (fun p => p.id == id)

/-- Modelled from the spec (§4.2 `get`): `NotFound` if `id` does not
exist. -/
def get (cs : CatalogState) (id : Nat) : Except CatalogError Product :=
  match findById cs id with
  | some p => .ok p
  | none => .error .notFound

/-- Modelled from the spec (§4.2 `create`): the token must validate via
the Auth Service, `data.name` must be non-empty and `data.price ≥ 0`;
the new Product gets a generated id and `ownerId` set to the
authenticated user; errors persist nothing. -/
def create (secret now : Nat) (cs : CatalogState) (tok : Token)
    (name : String) (price : Rat) (descr : Option String) :
    Except CatalogError (CatalogState × Product) :=
  match validate secret now tok with
  | .error _ => .error .unauthenticated
  | .ok uid =>
    if name = "" ∨ price < 0 then .error .invalidInput
    else
      let p : Product :=
        { id := cs.nextId, name := name, price := price,
          description := descr, ownerId := uid }
      .ok ({ products := cs.products ++ [p], nextId := cs.nextId + 1 }, p)

/-- Modelled from the spec (§4.2 `update`): a partial payload — each
field present or absent. -/
structure ProductPatch where
  name : Option String
  price : Option Rat
  description : Option String
deriving DecidableEq, Repr

/-- Modelled from the spec: "any provided fields must pass the same
validation as create" — a supplied name must be non-empty, a supplied
price must be ≥ 0. -/
def patchValid (patch : ProductPatch) : Bool :=
  (match patch.name with
   | some n => decide (n ≠ "")
   | none => true) &&
  (match patch.price with
   | some v => decide (0 ≤ v)
   | none => true)

/-- Modelled from the spec: "the Product with only the supplied fields
overwritten; unspecified fields are untouched". -/
def applyPatch (p : Product) (patch : ProductPatch) : Product :=
  { id := p.id, ownerId := p.ownerId,
    name := patch.name.getD p.name,
    price := patch.price.getD p.price,
    description := (patch.description.map some).getD p.description }

/-- Modelled from the spec (§4.2 `update`): token must validate, `id`
must exist, provided fields must validate; the stored record is replaced
by the patched one. -/
def update (secret now : Nat) (cs : CatalogState) (tok : Token) (id : Nat)
    (patch : ProductPatch) : Except CatalogError (CatalogState × Product) :=
  match validate secret now tok with
  | .error _ => .error .unauthenticated
  | .ok _ =>
    match findById cs id with
    | none => .error .notFound
    | some p =>
      if patchValid patch then
        let p' := applyPatch p patch
        .ok ({ products := cs.products.map (fun q => if q.id = id then p' else q),
               nextId := cs.nextId }, p')
      else .error .invalidInput

/-- Modelled from the spec (§4.2 `delete`): token must validate, `id`
must exist; the Product is removed from the store. -/
def remove (secret now : Nat) (cs : CatalogState) (tok : Token) (id : Nat) :
    Except CatalogError CatalogState :=
  match validate secret now tok with
  | .error _ => .error .unauthenticated
  | .ok _ =>
    match findById cs id with
    | none => .error .notFound
    | some _ =>
      .ok { products := cs.products.filter (fun p => ¬ p.id = id),
            nextId := cs.nextId }

/-- A catalog store state is reachable when it arises from the empty
store by successful `create`, `update` and `remove` operations (failed
operations return an error and leave no state). -/
inductive Reachable (secret : Nat) : CatalogState → Prop where
  | init : Reachable secret initialState
  | create {cs cs' : CatalogState} {now : Nat} {tok : Token} {name : String}
      {price : Rat} {descr : Option String} {p : Product} :
      Reachable secret cs →
      create secret now cs tok name price descr = .ok (cs', p) →
      Reachable secret cs'
  | update {cs cs' : CatalogState} {now id : Nat} {tok : Token}
      {patch : ProductPatch} {p : Product} :
      Reachable secret cs →
      update secret now cs tok id patch = .ok (cs', p) →
      Reachable secret cs'
  | remove {cs cs' : CatalogState} {now id : Nat} {tok : Token} :
      Reachable secret cs →
      remove secret now cs tok id = .ok cs' →
      Reachable secret cs'

/-- The spec's Product invariant: no price in the store is negative. -/
def PricesNonneg (cs : CatalogState) : Prop :=
  ∀ p ∈ cs.products, 0 ≤ p.price

end Catalog

section Theorems

/-- C3: every GET request to `/health` is answered by a registered route
handler with HTTP status 200 and the exact JSON body `{"status":"ok"}`,
in both backend applications (`backend/app.js` uses `res.json` whose
default status is 200; `backend/src/app.js` sets 200 explicitly). -/
theorem C3_health_route :
    Backend.appMain .GET "/health" = .route 200 (.obj [("status", .str "ok")]) ∧
    Backend.appSrc .GET "/health" = .route 200 (.obj [("status", .str "ok")]) :=
  ⟨rfl, rfl⟩

/-- C9: the health-check probe exits with status 0 if and only if the
`GET /health` request returned HTTP status exactly 200; any other status
code, and any connection error (modelled as `none`), exits with 1. -/
theorem C9_probe_exit :
    (∀ r : Option Nat, Backend.healthProbeExit r = 0 ↔ r = some 200) ∧
    (∀ r : Option Nat, r ≠ some 200 → Backend.healthProbeExit r = 1) := by
  constructor
  · intro r
    cases r with
    | none => simp [Backend.healthProbeExit]
    | some c =>
      by_cases h : c = 200 <;> simp [Backend.healthProbeExit, h]
  · intro r h
    cases r with
    | none => rfl
    | some c =>
      have hc : c ≠ 200 := by intro hc; exact h (by rw [hc])
      simp [Backend.healthProbeExit, hc]

/-- Witness for C9 at concrete inputs: a connection error and a 503
response exit with 1, a 200 response exits with 0. -/
theorem C9_probe_exit_witness :
    Backend.healthProbeExit none = 1 ∧
    Backend.healthProbeExit (some 503) = 1 ∧
    Backend.healthProbeExit (some 200) = 0 :=
  ⟨C9_probe_exit.2 none (by simp),
   C9_probe_exit.2 (some 503) (by simp),
   (C9_probe_exit.1 (some 200)).mpr rfl⟩

/-- C10: every frontend client function handles its response by the same
code: when the response's `ok` flag is false it throws an `Error` whose
message is the raw body text, otherwise it returns the body parsed as
JSON — never both; and each of the mutating calls `createProduct`,
`updateProduct`, `deleteProduct` carries an `Authorization: Bearer`
header exactly when a token is stored (while `register` and `login`
never do). -/
theorem C10_client_contract :
    (∀ (α : Type) (parse : String → α) (r : Client.FetchResponse),
        (r.ok = false → Client.apiResult parse r = .error r.body) ∧
        (r.ok = true → Client.apiResult parse r = .ok (parse r.body)) ∧
        ¬ (∃ e v, Client.apiResult parse r = .error e ∧
                  Client.apiResult parse r = .ok v)) ∧
    (∀ (store : Option String) (payload id : String),
        Client.hasAuthHeader (Client.createProductReq store payload) = store.isSome ∧
        Client.hasAuthHeader (Client.updateProductReq store id payload) = store.isSome ∧
        Client.hasAuthHeader (Client.deleteProductReq store id) = store.isSome ∧
        Client.hasAuthHeader (Client.registerReq payload) = false ∧
        Client.hasAuthHeader (Client.loginReq payload) = false) := by
  constructor
  · intro α parse r
    refine ⟨?_, ?_, ?_⟩
    · intro h; simp [Client.apiResult, h]
    · intro h; simp [Client.apiResult, h]
    · rintro ⟨e, v, h1, h2⟩
      rw [h1] at h2
      exact Except.noConfusion h2
  · intro store payload id
    cases store <;>
      simp [Client.hasAuthHeader, Client.createProductReq, Client.updateProductReq,
            Client.deleteProductReq, Client.registerReq, Client.loginReq,
            Client.authHeaders, Client.getToken]

/-- Witness for C10 at concrete inputs: a failed response's body becomes
the error message, a successful response's body is returned parsed, and
a stored token puts the auth header on a product creation. -/
theorem C10_client_contract_witness :
    Client.apiResult (fun s => s) ⟨false, "409 duplicate"⟩ = .error "409 duplicate" ∧
    Client.apiResult (fun s => s) ⟨true, "[]"⟩ = .ok "[]" ∧
    Client.hasAuthHeader (Client.createProductReq (some "tok") "{}") = true ∧
    Client.hasAuthHeader (Client.createProductReq none "{}") = false :=
  ⟨(C10_client_contract.1 String (fun s => s) ⟨false, "409 duplicate"⟩).1 rfl,
   (C10_client_contract.1 String (fun s => s) ⟨true, "[]"⟩).2.1 rfl,
   (C10_client_contract.2 (some "tok") "{}" "1").1,
   (C10_client_contract.2 none "{}" "1").1⟩

end Theorems

/-- C2, counterexample to the claim as stated: `GET /` is neither
`GET /health` nor under `/api-docs`, yet the backend application of
`backend/src/app.js` has a registered route handler for it (the
placeholder root, answering 200 with a JSON message) instead of the
framework's default 404. -/
theorem C2_counterexample :
    ¬ (Backend.Method.GET = Backend.Method.GET ∧ "/" = "/health") ∧
    Backend.mountMatch "/api-docs" "/" = false ∧
    Backend.appSrc .GET "/" = .route 200 Backend.rootBody ∧
    Backend.appSrc .GET "/" ≠ .notFound := by
  refine ⟨?_, rfl, rfl, ?_⟩
  · rintro ⟨-, h⟩
    simp at h
  · intro h
    rw [show Backend.appSrc .GET "/" = .route 200 Backend.rootBody from rfl] at h
    exact Backend.Outcome.noConfusion h

/-- C2, amended: for every HTTP request whose method and path are not
`GET /health`, not under `/api-docs`, and not `GET /` (the placeholder
root registered only in `backend/src/app.js`), no route handler is
registered in either backend application and the framework's default 404
is returned; in particular none of the spec's interface-table routes
(`POST /api/users/register`, `POST /api/users/login`,
`GET /api/users/profile`, and the `/api/products` routes) is implemented
in either application. -/
theorem C2_default_404 :
    (∀ (m : Backend.Method) (p : String),
        ¬ (m = .GET ∧ p = "/health") →
        Backend.mountMatch "/api-docs" p = false →
        ¬ (m = .GET ∧ p = "/") →
        Backend.appMain m p = .notFound ∧ Backend.appSrc m p = .notFound) ∧
    (Backend.appMain .POST "/api/users/register" = .notFound ∧
     Backend.appSrc .POST "/api/users/register" = .notFound ∧
     Backend.appMain .POST "/api/users/login" = .notFound ∧
     Backend.appSrc .POST "/api/users/login" = .notFound ∧
     Backend.appMain .GET "/api/users/profile" = .notFound ∧
     Backend.appSrc .GET "/api/users/profile" = .notFound ∧
     Backend.appMain .GET "/api/products" = .notFound ∧
     Backend.appSrc .GET "/api/products" = .notFound ∧
     Backend.appMain .POST "/api/products" = .notFound ∧
     Backend.appSrc .POST "/api/products" = .notFound ∧
     Backend.appMain .GET "/api/products/1" = .notFound ∧
     Backend.appSrc .GET "/api/products/1" = .notFound ∧
     Backend.appMain .PUT "/api/products/1" = .notFound ∧
     Backend.appSrc .PUT "/api/products/1" = .notFound ∧
     Backend.appMain .DELETE "/api/products/1" = .notFound ∧
     Backend.appSrc .DELETE "/api/products/1" = .notFound) := by
  constructor
  · intro m p hh hd hr
    constructor
    · simp only [Backend.appMain, hd]
      simp [hh]
    · simp [Backend.appSrc, hh, hr]
  · refine ⟨rfl, rfl, rfl, rfl, rfl, rfl, rfl, rfl, rfl, rfl, rfl, rfl, rfl, rfl, rfl, rfl⟩

/-- Witness for C2 at a concrete input: `POST /api/users/register`
reaches the default 404 in both backend applications. -/
theorem C2_default_404_witness :
    Backend.appMain .POST "/api/users/register" = .notFound ∧
    Backend.appSrc .POST "/api/users/register" = .notFound :=
  C2_default_404.1 .POST "/api/users/register"
    (by rintro ⟨h, -⟩; exact Backend.Method.noConfusion h)
    (by rfl)
    (by rintro ⟨h, -⟩; exact Backend.Method.noConfusion h)

/-- C1 (spec-modelled, the Auth Service being absent from the source):
for every syntactically valid email and password meeting the length
policy, with the email not previously registered, `register` succeeds,
a subsequent `login` with the same credentials succeeds, and the token
it returns is accepted by `validate`, which returns the id of the newly
created user. -/
theorem C1_register_login_validate (secret now : Nat) (s : Auth.AuthState)
    (email pw : String) (nm : Option String)
    (hv : Auth.emailValid email = true) (hp : Auth.pwValid pw = true)
    (hfresh : Auth.findByEmail s email = none) :
    ∃ (s' : Auth.AuthState) (u : Auth.User) (tok tok' : Auth.Token),
      Auth.register secret now s email pw nm = .ok (s', u, tok) ∧
      Auth.login secret now s' email pw = .ok tok' ∧
      Auth.validate secret now tok' = .ok u.id := by
  refine ⟨{ users := s.users ++
              [{ id := s.nextId, email := email, salt := Auth.saltFor s.nextId,
                 passwordHash := Auth.hashPassword (Auth.saltFor s.nextId) pw,
                 name := nm }],
            nextId := s.nextId + 1 },
          { id := s.nextId, email := email, salt := Auth.saltFor s.nextId,
            passwordHash := Auth.hashPassword (Auth.saltFor s.nextId) pw,
            name := nm },
          Auth.mintToken secret now s.nextId,
          Auth.mintToken secret now s.nextId, ?_, ?_, ?_⟩
  · unfold Auth.register
    rw [hfresh]
    simp [hv, hp]
  · unfold Auth.login Auth.findByEmail
    have h1 : s.users.find?
        (fun x => Auth.normEmail x.email == Auth.normEmail email) = none := hfresh
    rw [List.find?_append, h1]
    simp
  · unfold Auth.validate Auth.mintToken
    simp [Auth.tokenLifetime]

/-- C4 (spec-modelled, the Auth Service being absent from the source):
registering an already-registered email fails with `DuplicateEmail`
whatever the password, and a successful registration preserves the
invariant that no two Users share an email, case-insensitively (so no
second record with the same email is ever created). -/
theorem C4_duplicate_email :
    (∀ (secret now : Nat) (s : Auth.AuthState) (email pw : String)
        (nm : Option String) (u : Auth.User),
        Auth.findByEmail s email = some u →
        Auth.register secret now s email pw nm = .error .duplicateEmail) ∧
    (∀ (secret now : Nat) (s : Auth.AuthState) (email pw : String)
        (nm : Option String) (s' : Auth.AuthState) (u : Auth.User)
        (tok : Auth.Token),
        Auth.EmailsUnique s →
        Auth.register secret now s email pw nm = .ok (s', u, tok) →
        Auth.EmailsUnique s') := by
  constructor
  · intro secret now s email pw nm u hdup
    unfold Auth.register
    rw [hdup]
  · intro secret now s email pw nm s' u tok huniq hok
    cases hfind : Auth.findByEmail s email with
    | some v =>
      simp only [Auth.register, hfind] at hok
      exact Except.noConfusion hok
    | none =>
      by_cases hval : Auth.emailValid email = true ∧ Auth.pwValid pw = true
      · simp only [Auth.register, hfind, if_pos hval, Except.ok.injEq,
          Prod.mk.injEq] at hok
        obtain ⟨hs', -, -⟩ := hok
        subst hs'
        unfold Auth.EmailsUnique at huniq ⊢
        rw [List.pairwise_append]
        refine ⟨huniq, List.pairwise_singleton .., ?_⟩
        intro a ha b hb
        have hb' : b = { id := s.nextId, email := email,
                         salt := Auth.saltFor s.nextId,
                         passwordHash := Auth.hashPassword (Auth.saltFor s.nextId) pw,
                         name := nm } := List.mem_singleton.mp hb
        subst hb'
        have hnone := List.find?_eq_none.mp hfind a ha
        simpa using hnone
      · simp only [Auth.register, hfind, if_neg hval] at hok
        exact Except.noConfusion hok

/-- Witness for C4 at concrete inputs: with `a@x.com` already
registered, registering it again with another password and in another
case fails with `DuplicateEmail`. -/
theorem C4_duplicate_email_witness :
    Auth.register 7 0
      { users := [{ id := 0, email := "a@x.com", salt := "salt0",
                    passwordHash := "salt0:secret1", name := none }],
        nextId := 1 } "A@X.com" "other-password" none = .error .duplicateEmail :=
  C4_duplicate_email.1 7 0
    { users := [{ id := 0, email := "a@x.com", salt := "salt0",
                  passwordHash := "salt0:secret1", name := none }],
      nextId := 1 } "A@X.com" "other-password" none
    { id := 0, email := "a@x.com", salt := "salt0",
      passwordHash := "salt0:secret1", name := none }
    (by rfl)

/-- C5 (spec-modelled, the Auth Service being absent from the source):
a login with a non-existent email and a login with an existing email but
wrong password produce the identical `InvalidCredentials` error, so the
caller cannot tell whether the account exists. -/
theorem C5_invalid_credentials (secret now : Nat) (s : Auth.AuthState)
    (e1 p1 e2 p2 : String)
    (h1 : Auth.findByEmail s e1 = none)
    (u : Auth.User) (h2 : Auth.findByEmail s e2 = some u)
    (h3 : u.passwordHash ≠ Auth.hashPassword u.salt p2) :
    Auth.login secret now s e1 p1 = .error .invalidCredentials ∧
    Auth.login secret now s e2 p2 = .error .invalidCredentials ∧
    Auth.login secret now s e1 p1 = Auth.login secret now s e2 p2 := by
  have ha : Auth.login secret now s e1 p1 = .error .invalidCredentials := by
    unfold Auth.login; rw [h1]
  have hb : Auth.login secret now s e2 p2 = .error .invalidCredentials := by
    simp only [Auth.login, h2, if_neg h3]
  exact ⟨ha, hb, ha.trans hb.symm⟩

/-- Witness for C5 at concrete inputs: one user `a@x.com` with password
hash of `secret1`; logging in as the unknown `b@x.com` and as `a@x.com`
with the wrong password both yield `InvalidCredentials`. -/
theorem C5_invalid_credentials_witness :
    Auth.login 7 0
      { users := [{ id := 0, email := "a@x.com", salt := "salt0",
                    passwordHash := "salt0:secret1", name := none }],
        nextId := 1 } "b@x.com" "secret1" = .error .invalidCredentials ∧
    Auth.login 7 0
      { users := [{ id := 0, email := "a@x.com", salt := "salt0",
                    passwordHash := "salt0:secret1", name := none }],
        nextId := 1 } "a@x.com" "wrong-password" = .error .invalidCredentials :=
  ⟨(C5_invalid_credentials 7 0
      { users := [{ id := 0, email := "a@x.com", salt := "salt0",
                    passwordHash := "salt0:secret1", name := none }],
        nextId := 1 } "b@x.com" "secret1" "a@x.com" "wrong-password"
      (by rfl)
      { id := 0, email := "a@x.com", salt := "salt0",
        passwordHash := "salt0:secret1", name := none }
      (by rfl) (by simp [Auth.hashPassword])).1,
   (C5_invalid_credentials 7 0
      { users := [{ id := 0, email := "a@x.com", salt := "salt0",
                    passwordHash := "salt0:secret1", name := none }],
        nextId := 1 } "b@x.com" "secret1" "a@x.com" "wrong-password"
      (by rfl)
      { id := 0, email := "a@x.com", salt := "salt0",
        passwordHash := "salt0:secret1", name := none }
      (by rfl) (by simp [Auth.hashPassword])).2.1⟩

/-- Witness for C1 at concrete inputs: registering `a@x.com` with
password `secret1` in the empty store, then logging in with the same
credentials, yields a token that `validate` accepts. -/
theorem C1_register_login_validate_witness :
    ∃ (s' : Auth.AuthState) (u : Auth.User) (tok tok' : Auth.Token),
      Auth.register 7 0 { users := [], nextId := 0 } "a@x.com" "secret1" none
        = .ok (s', u, tok) ∧
      Auth.login 7 0 s' "a@x.com" "secret1" = .ok tok' ∧
      Auth.validate 7 0 tok' = .ok u.id :=
  C1_register_login_validate 7 0 { users := [], nextId := 0 } "a@x.com" "secret1"
    none (by rfl) (by decide) (by rfl)

/-- Decomposition of a successful `create`: the store gains exactly the
returned product, whose fields are the validated inputs. -/
theorem Catalog.create_ok (secret now : Nat) (cs : Catalog.CatalogState)
    (tok : Auth.Token) (name : String) (price : Rat) (descr : Option String)
    (cs' : Catalog.CatalogState) (p : Catalog.Product)
    (h : Catalog.create secret now cs tok name price descr = .ok (cs', p)) :
    cs'.products = cs.products ++ [p] ∧ p.price = price ∧
    p.name = name ∧ ¬ name = "" ∧ 0 ≤ price := by
  cases hval : Auth.validate secret now tok with
  | error e =>
    simp only [Catalog.create, hval] at h
    exact Except.noConfusion h
  | ok uid =>
    by_cases hc : name = "" ∨ price < 0
    · simp only [Catalog.create, hval, if_pos hc] at h
      exact Except.noConfusion h
    · simp only [Catalog.create, hval, if_neg hc, Except.ok.injEq,
        Prod.mk.injEq] at h
      obtain ⟨hcs, hp⟩ := h
      subst hcs
      subst hp
      push_neg at hc
      exact ⟨rfl, rfl, rfl, hc.1, hc.2⟩

/-- Decomposition of a successful `update`: the target exists, the patch
is valid, the result is the patched product, and the store maps the
target to it, leaving every other record unchanged. -/
theorem Catalog.update_ok (secret now : Nat) (cs : Catalog.CatalogState)
    (tok : Auth.Token) (id : Nat) (patch : Catalog.ProductPatch)
    (cs' : Catalog.CatalogState) (p' : Catalog.Product)
    (h : Catalog.update secret now cs tok id patch = .ok (cs', p')) :
    ∃ p, Catalog.findById cs id = some p ∧ Catalog.patchValid patch = true ∧
      p' = Catalog.applyPatch p patch ∧
      cs'.products = cs.products.map
        (fun q => if q.id = id then Catalog.applyPatch p patch else q) := by
  cases hval : Auth.validate secret now tok with
  | error e =>
    simp only [Catalog.update, hval] at h
    exact Except.noConfusion h
  | ok uid =>
    cases hfind : Catalog.findById cs id with
    | none =>
      simp only [Catalog.update, hval, hfind] at h
      exact Except.noConfusion h
    | some p =>
      by_cases hpv : Catalog.patchValid patch = true
      · simp only [Catalog.update, hval, hfind, if_pos hpv, Except.ok.injEq,
          Prod.mk.injEq] at h
        obtain ⟨hcs, hp⟩ := h
        subst hcs
        subst hp
        exact ⟨p, rfl, hpv, rfl, rfl⟩
      · simp only [Catalog.update, hval, hfind, if_neg hpv] at h
        exact Except.noConfusion h

/-- Decomposition of a successful `remove`: the store keeps exactly the
records with a different id. -/
theorem Catalog.remove_ok (secret now : Nat) (cs : Catalog.CatalogState)
    (tok : Auth.Token) (id : Nat) (cs' : Catalog.CatalogState)
    (h : Catalog.remove secret now cs tok id = .ok cs') :
    cs'.products = cs.products.filter (fun p => ¬ p.id = id) := by
  cases hval : Auth.validate secret now tok with
  | error e =>
    simp only [Catalog.remove, hval] at h
    exact Except.noConfusion h
  | ok uid =>
    cases hfind : Catalog.findById cs id with
    | none =>
      simp only [Catalog.remove, hval, hfind] at h
      exact Except.noConfusion h
    | some p =>
      simp only [Catalog.remove, hval, hfind, Except.ok.injEq] at h
      subst h
      rfl

/-- A patch supplying a price only supplies a non-negative one. -/
theorem Catalog.patchValid_price (patch : Catalog.ProductPatch) (v : Rat)
    (hpv : Catalog.patchValid patch = true) (hv : patch.price = some v) :
    0 ≤ v := by
  unfold Catalog.patchValid at hpv
  rw [hv] at hpv
  rcases Bool.and_eq_true .. |>.mp hpv with ⟨-, h2⟩
  exact of_decide_eq_true h2

/-- A successful `update` preserves the price invariant. -/
theorem Catalog.update_preserves_nonneg (secret now : Nat)
    (cs : Catalog.CatalogState) (tok : Auth.Token) (id : Nat)
    (patch : Catalog.ProductPatch) (cs' : Catalog.CatalogState)
    (p' : Catalog.Product)
    (h : Catalog.update secret now cs tok id patch = .ok (cs', p'))
    (hcs : Catalog.PricesNonneg cs) : Catalog.PricesNonneg cs' := by
  obtain ⟨p, hfind, hpv, -, hprod⟩ := Catalog.update_ok _ _ _ _ _ _ _ _ h
  intro q' hq'
  rw [hprod] at hq'
  obtain ⟨q, hq, hqe⟩ := List.mem_map.mp hq'
  by_cases hid : q.id = id
  · rw [if_pos hid] at hqe
    subst hqe
    show 0 ≤ (Catalog.applyPatch p patch).price
    unfold Catalog.applyPatch
    cases hv : patch.price with
    | none =>
      simp only [hv, Option.getD_none]
      exact hcs p (List.mem_of_find?_eq_some hfind)
    | some v =>
      simp only [hv, Option.getD_some]
      exact Catalog.patchValid_price patch v hpv hv
  · rw [if_neg hid] at hqe
    subst hqe
    exact hcs q hq

/-- C6 (spec-modelled, the Catalog Service being absent from the
source): every product returned by a successful `create` has a
non-negative price; with a valid session token, `create` with price `-1`
fails with `InvalidInput` (and, returning an error, persists nothing);
and consequently every state reachable from the empty store by catalog
operations has no negative price. -/
theorem C6_price_nonneg :
    (∀ (secret now : Nat) (cs : Catalog.CatalogState) (tok : Auth.Token)
        (name : String) (price : Rat) (descr : Option String)
        (cs' : Catalog.CatalogState) (p : Catalog.Product),
        Catalog.create secret now cs tok name price descr = .ok (cs', p) →
        0 ≤ p.price) ∧
    (∀ (secret now : Nat) (cs : Catalog.CatalogState) (tok : Auth.Token)
        (name : String) (descr : Option String) (uid : Nat),
        Auth.validate secret now tok = .ok uid →
        Catalog.create secret now cs tok name (-1) descr
          = .error .invalidInput) ∧
    (∀ (secret : Nat) (cs : Catalog.CatalogState),
        Catalog.Reachable secret cs → Catalog.PricesNonneg cs) := by
  refine ⟨?_, ?_, ?_⟩
  · intro secret now cs tok name price descr cs' p h
    obtain ⟨-, hp, -, -, hnn⟩ := Catalog.create_ok _ _ _ _ _ _ _ _ _ h
    rw [hp]
    exact hnn
  · intro secret now cs tok name descr uid hval
    simp only [Catalog.create, hval,
      if_pos (Or.inr (by norm_num : (-1 : Rat) < 0))]
  · intro secret cs hr
    induction hr with
    | init =>
      intro q hq
      exact absurd hq (List.not_mem_nil q)
    | create hr hok ih =>
      obtain ⟨hprod, hp, -, -, hnn⟩ := Catalog.create_ok _ _ _ _ _ _ _ _ _ hok
      intro q hq
      rw [hprod] at hq
      rcases List.mem_append.mp hq with hmem | hmem
      · exact ih q hmem
      · rw [List.mem_singleton.mp hmem, hp]
        exact hnn
    | update hr hok ih =>
      exact Catalog.update_preserves_nonneg _ _ _ _ _ _ _ _ hok ih
    | remove hr hok ih =>
      have hprod := Catalog.remove_ok _ _ _ _ _ _ hok
      intro q hq
      rw [hprod] at hq
      exact ih q (List.mem_filter.mp hq).1

/-- Witness for C6 at concrete inputs: with a freshly minted valid
token, creating a product at price `-1` in the empty store fails with
`InvalidInput`; the empty store itself satisfies the price invariant. -/
theorem C6_price_nonneg_witness :
    Catalog.create 7 0 Catalog.initialState (Auth.mintToken 7 0 3) "Pen" (-1)
      none = .error .invalidInput ∧
    Catalog.PricesNonneg Catalog.initialState :=
  ⟨C6_price_nonneg.2.1 7 0 Catalog.initialState (Auth.mintToken 7 0 3) "Pen"
     none 3 (by rfl),
   C6_price_nonneg.2.2 7 Catalog.initialState Catalog.Reachable.init⟩

/-- A sample product used to evaluate the catalog operations. -/
def Catalog.sampleProduct : Catalog.Product :=
  { id := 0, name := "Pen", price := 2, description := none, ownerId := 3 }

/-- A sample store holding exactly the sample product. -/
def Catalog.sampleState : Catalog.CatalogState :=
  { products := [Catalog.sampleProduct], nextId := 1 }

/-- A sample partial payload supplying only a new price. -/
def Catalog.samplePatch : Catalog.ProductPatch :=
  { name := none, price := some 3, description := none }

/-- C7 (spec-modelled, the Catalog Service being absent from the
source): a successful `update` with a partial payload returns the stored
Product with exactly the supplied fields overwritten; `id`, `ownerId`
and every field not present in the payload are unchanged. -/
theorem C7_update_frame (secret now : Nat) (cs : Catalog.CatalogState)
    (tok : Auth.Token) (id : Nat) (patch : Catalog.ProductPatch)
    (p : Catalog.Product) (hfind : Catalog.findById cs id = some p)
    (cs' : Catalog.CatalogState) (p' : Catalog.Product)
    (hup : Catalog.update secret now cs tok id patch = .ok (cs', p')) :
    p'.id = p.id ∧ p'.ownerId = p.ownerId ∧
    (patch.name = none → p'.name = p.name) ∧
    (∀ n, patch.name = some n → p'.name = n) ∧
    (patch.price = none → p'.price = p.price) ∧
    (∀ v, patch.price = some v → p'.price = v) ∧
    (patch.description = none → p'.description = p.description) ∧
    (∀ d, patch.description = some d → p'.description = some d) := by
  obtain ⟨q, hq, -, hp', -⟩ := Catalog.update_ok _ _ _ _ _ _ _ _ hup
  rw [hfind] at hq
  injection hq with hq
  subst hq
  subst hp'
  refine ⟨rfl, rfl, ?_, ?_, ?_, ?_, ?_, ?_⟩
  · intro h; simp [Catalog.applyPatch, h]
  · intro n h; simp [Catalog.applyPatch, h]
  · intro h; simp [Catalog.applyPatch, h]
  · intro v h; simp [Catalog.applyPatch, h]
  · intro h; simp [Catalog.applyPatch, h]
  · intro d h; simp [Catalog.applyPatch, h]

/-- Witness for C7 at concrete inputs: updating the sample product with
a price-only payload yields price 3 while name, id and owner stay
untouched. -/
theorem C7_update_frame_witness :
    (Catalog.applyPatch Catalog.sampleProduct Catalog.samplePatch).price = 3 ∧
    (Catalog.applyPatch Catalog.sampleProduct Catalog.samplePatch).name
      = Catalog.sampleProduct.name ∧
    (Catalog.applyPatch Catalog.sampleProduct Catalog.samplePatch).id
      = Catalog.sampleProduct.id ∧
    (Catalog.applyPatch Catalog.sampleProduct Catalog.samplePatch).ownerId
      = Catalog.sampleProduct.ownerId :=
  ⟨(C7_update_frame 7 0 Catalog.sampleState (Auth.mintToken 7 0 3) 0
      Catalog.samplePatch Catalog.sampleProduct (by rfl)
      { products := [Catalog.applyPatch Catalog.sampleProduct Catalog.samplePatch],
        nextId := 1 }
      (Catalog.applyPatch Catalog.sampleProduct Catalog.samplePatch)
      (by rfl)).2.2.2.2.2.1 3 rfl,
   (C7_update_frame 7 0 Catalog.sampleState (Auth.mintToken 7 0 3) 0
      Catalog.samplePatch Catalog.sampleProduct (by rfl)
      { products := [Catalog.applyPatch Catalog.sampleProduct Catalog.samplePatch],
        nextId := 1 }
      (Catalog.applyPatch Catalog.sampleProduct Catalog.samplePatch)
      (by rfl)).2.2.1 rfl,
   (C7_update_frame 7 0 Catalog.sampleState (Auth.mintToken 7 0 3) 0
      Catalog.samplePatch Catalog.sampleProduct (by rfl)
      { products := [Catalog.applyPatch Catalog.sampleProduct Catalog.samplePatch],
        nextId := 1 }
      (Catalog.applyPatch Catalog.sampleProduct Catalog.samplePatch)
      (by rfl)).1,
   (C7_update_frame 7 0 Catalog.sampleState (Auth.mintToken 7 0 3) 0
      Catalog.samplePatch Catalog.sampleProduct (by rfl)
      { products := [Catalog.applyPatch Catalog.sampleProduct Catalog.samplePatch],
        nextId := 1 }
      (Catalog.applyPatch Catalog.sampleProduct Catalog.samplePatch)
      (by rfl)).2.1⟩

/-- C8 (spec-modelled, the Catalog Service being absent from the
source): after a successful `delete` of a product id, `get` on the same
id fails with `NotFound`. -/
theorem C8_delete_then_get (secret now : Nat) (cs cs' : Catalog.CatalogState)
    (tok : Auth.Token) (id : Nat)
    (h : Catalog.remove secret now cs tok id = .ok cs') :
    Catalog.get cs' id = .error .notFound := by
  have hprod := Catalog.remove_ok _ _ _ _ _ _ h
  have hnone : Catalog.findById cs' id = none := by
    unfold Catalog.findById
    rw [hprod, List.find?_filter, List.find?_eq_none]
    intro x hx
    by_cases hid : x.id = id <;> simp [hid]
  simp only [Catalog.get, hnone]

/-- Witness for C8 at concrete inputs: deleting the sample product from
the sample store leaves a store where `get 0` is `NotFound`. -/
theorem C8_delete_then_get_witness :
    Catalog.get { products := [], nextId := 1 } 0 = .error .notFound :=
  C8_delete_then_get 7 0 Catalog.sampleState { products := [], nextId := 1 }
    (Auth.mintToken 7 0 3) 0 (by rfl)
